import Mathlib

/-!
Verification of the pet_dashboard core (store + API routes).

Shallow embedding of the state/alert engine of the repository:

* `src/lib/store.js` — the `pets` registry, `verificarReset` (daily reset)
  and `calcularStatus` (alert evaluator);
* `src/app/api/pet/route.js` — `GET` (fetch one pet) and `POST`
  (apply a feed / medicate / annotate action);
* `src/app/api/status/route.js` — `GET` (status of every pet).

Modelling conventions:

* Timestamps are natural numbers: milliseconds since the Unix epoch in the
  fixed reference time zone.  Every `new Date()` call site of the JavaScript
  becomes an explicit parameter of the embedded function, so a function that
  reads the clock twice takes two time parameters.
* `new Date().getDate()` (the JavaScript day-of-month, 1–31) is embedded as
  `getDate`, computed from the millisecond timestamp with the standard
  civil-from-days calendar algorithm.  The calendar day itself (the value a
  "same day" comparison is specified against) is `calDay`, the number of
  whole days since the epoch.
* The JavaScript registry object `pets` is an association list
  `List (String × Pet)`; object keys are unique, which becomes a `Nodup`
  hypothesis where a theorem needs it.
* JavaScript truthiness: a `null`/`undefined` timestamp is `Option.none`;
  `texto?.trim()` is truthy exactly when `texto` is present and its trim is
  a non-empty string.
* The float computation `(agora - ultima) / 1000 / 60 / 60 >= 8` is embedded
  with natural-number division, which agrees with the float comparison on
  every integer millisecond difference (the threshold 8 · 3600000 ms is
  exactly representable, and a negative JavaScript difference compares false
  just as the truncated natural subtraction does).
-/

/-- Milliseconds in one day. -/
def msPerDay : Nat := 86400000

/-- The calendar day of a timestamp: whole days since the Unix epoch.
This is the specification's notion of "calendar day (in a fixed reference
time zone)": two timestamps lie on the same calendar day iff their `calDay`
agree. -/
def calDay (t : Nat) : Nat := t / msPerDay

/-- Day of the month (1–31) of a day count since the Unix epoch, by the
standard civil-from-days (Gregorian) algorithm, restricted to days ≥ 0. -/
def civilDayOfMonth (z0 : Nat) : Nat :=
  let z := z0 + 719468
  let doe := z % 146097
  let yoe := ((doe - doe / 1460 + doe / 36524) - doe / 146096) / 365
  let doy := doe - ((365 * yoe + yoe / 4) - yoe / 100)
  let mp := (5 * doy + 2) / 153
  doy - (153 * mp + 2) / 5 + 1

/-- Embeds the JavaScript `new Date(t).getDate()`: the day of the month of
timestamp `t`. -/
def getDate (t : Nat) : Nat := civilDayOfMonth (calDay t)

/-- One entry of a pet's `notas` array as pushed by the `POST` route:
`{ texto: texto.trim(), data: <timestamp sampled in the nota branch> }`.
The locale formatting of `data` is display-only; the model keeps the
sampled timestamp itself. -/
structure Nota where
  texto : String
  data : Nat
deriving DecidableEq, Repr

/-- One record of the `pets` object in `store.js`.  The pet `noah` carries
no `remedio` / `maxRemedio` / `ultimoHorarioRemedio` properties in the
JavaScript source; since `temRemedio = false` gates every access to them,
they are embedded as `0` / `0` / `none`. -/
structure Pet where
  dataNascimento : String
  especie : String
  genero : String
  raca : String
  peso : String
  cor : String
  comida : Nat
  ultimoHorarioComida : Option Nat
  maxComida : Nat
  temRemedio : Bool
  remedio : Nat
  ultimoHorarioRemedio : Option Nat
  maxRemedio : Nat
  alertaSaude : Bool
  notas : List Nota
deriving DecidableEq, Repr

/-- The registry: the string-keyed `pets` object, as an association list. -/
abbrev Store : Type := List (String × Pet)

/-- Lookup of `pets[animal]`: find a pet by its identifier. -/
def buscarPet (l : Store) (a : String) : Option Pet :=
  match l with
  | [] => none
  | e :: t => if e.1 = a then some e.2 else buscarPet t a

/-- In-place mutation of `pets[animal]`: replace the value at key `a`. -/
def updatePet (l : Store) (a : String) (p : Pet) : Store :=
  l.map (fun e => if e.1 = a then (e.1, p) else e)

/-- The keys of the registry (unique in a JavaScript object). -/
def storeKeys (l : Store) : List String := l.map Prod.fst

/-- The `tutu` record of `store.js` at process start. -/
def tutu : Pet :=
  { dataNascimento := "2025-03-17", especie := "Gato", genero := "Macho"
    raca := "Vira-lata", peso := "3,4 kg", cor := "Branco e laranja"
    comida := 0, ultimoHorarioComida := none, maxComida := 3
    temRemedio := true, remedio := 0, ultimoHorarioRemedio := none
    maxRemedio := 2, alertaSaude := false, notas := [] }

/-- The `noah` record of `store.js` at process start. -/
def noah : Pet :=
  { dataNascimento := "2019-07-22", especie := "Cachorro", genero := "Macho"
    raca := "Vira-lata", peso := "28 kg", cor := "Branco"
    comida := 0, ultimoHorarioComida := none, maxComida := 3
    temRemedio := false, remedio := 0, ultimoHorarioRemedio := none
    maxRemedio := 0, alertaSaude := false, notas := [] }

/-- The initial registry. -/
def petsInit : Store := [("tutu", tutu), ("noah", noah)]

/-- The module-level mutable state of `store.js`: the `pets` object and the
`ultimoReset` day-of-month. -/
structure StoreState where
  pets : Store
  ultimoReset : Nat
deriving DecidableEq, Repr

/-- The reset the `forEach` body of `verificarReset` applies to one pet:
`comida = 0`, `ultimoHorarioComida = null`, and, when `temRemedio`,
`remedio = 0`, `ultimoHorarioRemedio = null`. -/
def resetPet (p : Pet) : Pet :=
  let p1 := { p with comida := 0, ultimoHorarioComida := none }
  if p1.temRemedio then
    { p1 with remedio := 0, ultimoHorarioRemedio := none }
  else p1

/-- Embeds `verificarReset()` of `store.js`.  Here `now` is the timestamp
the JavaScript reads with `new Date()`; the function compares only
`getDate now` (the day of the month) with the stored `ultimoReset`. -/
def verificarReset (st : StoreState) (now : Nat) : StoreState :=
  let hoje := getDate now
  if hoje ≠ st.ultimoReset then
    { pets := st.pets.map (fun e => (e.1, resetPet e.2)), ultimoReset := hoje }
  else st

/-- The `{ tipo, mensagem }` object returned by `calcularStatus`. -/
structure Status where
  tipo : String
  mensagem : String
deriving DecidableEq, Repr

/-- Embeds `calcularStatus(pet)` of `store.js`, with the `new Date()` read inside
the function made an explicit parameter `agora`.  Priority: saude, then
comida (≥ 8 h since the last feed), then remedio (≥ 12 h since the last
medication, only when `temRemedio`), else ok. -/
def calcularStatus (pet : Pet) (agora : Nat) : Status :=
  if pet.alertaSaude then { tipo := "saude", mensagem := "Alerta de saúde 🚨" }
  else
    let comidaAlerta :=
      match pet.ultimoHorarioComida with
      | some ultima => decide (8 ≤ (agora - ultima) / 1000 / 60 / 60)
      | none => false
    if comidaAlerta then { tipo := "comida", mensagem := "Alerta de comida 🚨" }
    else
      let remedioAlerta :=
        match pet.ultimoHorarioRemedio with
        | some u => pet.temRemedio && decide (12 ≤ (agora - u) / 1000 / 60 / 60)
        | none => false
      if remedioAlerta then { tipo := "remedio", mensagem := "Alerta de remédio 🚨" }
      else { tipo := "ok", mensagem := "Tudo certo ✅" }

/-- Result of an API route: `Response.json(pet)` or a 400 error object. -/
inductive ApiResult where
  | ok (pet : Pet)
  | error (msg : String)
deriving DecidableEq, Repr

/-- Whether an `ApiResult` is the 400 error branch. -/
def ApiResult.isError : ApiResult → Bool
  | .ok _ => false
  | .error _ => true

/-- Embeds JavaScript `texto.trim()`: strip leading and trailing whitespace
characters (structurally, so that concrete instances evaluate). -/
def jsTrim (s : String) : String :=
  ⟨((s.data.dropWhile Char.isWhitespace).reverse.dropWhile Char.isWhitespace).reverse⟩

/-- The body of `POST /api/pet` acting on one pet (lines 87–109 of the
route): the three sequential `if` blocks.  `agora` embeds the single
`agoraISO = new Date().toISOString()` sample used by the comida and remedio
branches; `tNota` embeds the second, separate `new Date()` sample taken in
the nota branch (`data: new Date().toLocaleString("pt-BR")`). -/
def stepPet (pet : Pet) (tipo : String) (texto : Option String)
    (agora tNota : Nat) : Pet :=
  let p1 :=
    if tipo = "comida" ∧ pet.comida < pet.maxComida then
      { pet with comida := pet.comida + 1, ultimoHorarioComida := some agora }
    else pet
  let p2 :=
    if tipo = "remedio" ∧ p1.temRemedio = true then
      if p1.remedio < p1.maxRemedio then
        { p1 with remedio := p1.remedio + 1, ultimoHorarioRemedio := some agora }
      else p1
    else p1
  match texto with
  | some s =>
      if tipo = "nota" ∧ jsTrim s ≠ "" then
        { p2 with notas := p2.notas ++ [{ texto := jsTrim s, data := tNota }] }
      else p2
  | none => p2

/-- Lines 79–111 of `POST /api/pet`: resolve the animal (400 if unknown),
apply the action to its record, return the updated record. -/
def applyAction (pets : Store) (animal tipo : String) (texto : Option String)
    (agora tNota : Nat) : Store × ApiResult :=
  match buscarPet pets animal with
  | none => (pets, ApiResult.error "Animal inválido")
  | some pet =>
      let pet1 := stepPet pet tipo texto agora tNota
      (updatePet pets animal pet1, ApiResult.ok pet1)

/-- Embeds `POST /api/pet` after a successful JSON parse: `verificarReset()`
(its own clock read `tReset`), then the action.  -/
def POST (st : StoreState) (animal tipo : String) (texto : Option String)
    (tReset agora tNota : Nat) : StoreState × ApiResult :=
  let st1 := verificarReset st tReset
  let r := applyAction st1.pets animal tipo texto agora tNota
  ({ st1 with pets := r.1 }, r.2)

/-- Embeds `GET /api/pet?animal=…`: `verificarReset()`, then parameter validation
(`!animal || !pets[animal]`; a missing or empty parameter is falsy), then
the record. -/
def GET (st : StoreState) (animal : Option String) (tReset : Nat) :
    StoreState × ApiResult :=
  let st1 := verificarReset st tReset
  match animal with
  | none => (st1, ApiResult.error "Animal inválido")
  | some a =>
      if a = "" then (st1, ApiResult.error "Animal inválido")
      else
        match buscarPet st1.pets a with
        | none => (st1, ApiResult.error "Animal inválido")
        | some pet => (st1, ApiResult.ok pet)

/-- Embeds `GET /api/status`: `verificarReset()`, then `calcularStatus` on every
pet (each `calcularStatus` call reads the clock; `agora` embeds that
sample).  Returns the new state and the per-animal statuses. -/
def statusAll (st : StoreState) (tReset agora : Nat) :
    StoreState × List (String × Status) :=
  let st1 := verificarReset st tReset
  (st1, st1.pets.map (fun e => (e.1, calcularStatus e.2 agora)))

/-- A sequence of POST calls of one action kind applied to a single record:
each element carries the `texto` of the request and the two clock samples of
that call. -/
def applySeq (pet : Pet) (tipo : String)
    (xs : List (Option String × Nat × Nat)) : Pet :=
  xs.foldl (fun p x => stepPet p tipo x.1 x.2.1 x.2.2) pet

/-- Written from the specification's wording: a recorded timestamp is
"set and at least `horas` hours old at `agora`". -/
def overdueB (last : Option Nat) (agora horas : Nat) : Bool :=
  match last with
  | some u => decide (horas ≤ (agora - u) / 1000 / 60 / 60)
  | none => false

/-- Written from the claim's wording (the priority cascade of `evaluate`):
health if `healthAlert`; otherwise food if the last feed is set and ≥ 8 h
old; otherwise medication if `hasMedication` and the last medication is set
and ≥ 12 h old; otherwise ok.  Stated on the `tipo` strings the code uses. -/
def specStatusTipo (pet : Pet) (agora : Nat) : String :=
  if pet.alertaSaude = true then "saude"
  else if overdueB pet.ultimoHorarioComida agora 8 then "comida"
  else if pet.temRemedio = true ∧ overdueB pet.ultimoHorarioRemedio agora 12 then
    "remedio"
  else "ok"

/-- A concrete record at its feed cap, for witnesses. -/
def tutuFull : Pet := { tutu with comida := 3 }

/-- A concrete record that was medicated at time 0 but never fed, for the
evaluator counterexample. -/
def tutuMedicado : Pet := { tutu with ultimoHorarioRemedio := some 0 }

/-! Helper lemmas about the embedded operations. -/

theorem stepPet_eq_comida (p : Pet) (texto : Option String) (agora tNota : Nat) :
    stepPet p "comida" texto agora tNota =
      if p.comida < p.maxComida then
        { p with comida := p.comida + 1, ultimoHorarioComida := some agora }
      else p := by
  cases texto with
  | none => by_cases h : p.comida < p.maxComida <;> simp [stepPet, h]
  | some s => by_cases h : p.comida < p.maxComida <;> simp [stepPet, h]

theorem stepPet_eq_remedio (p : Pet) (texto : Option String) (agora tNota : Nat) :
    stepPet p "remedio" texto agora tNota =
      if p.temRemedio = true then
        if p.remedio < p.maxRemedio then
          { p with remedio := p.remedio + 1, ultimoHorarioRemedio := some agora }
        else p
      else p := by
  cases texto with
  | none =>
      by_cases h : p.temRemedio = true <;>
        by_cases h2 : p.remedio < p.maxRemedio <;> simp [stepPet, h, h2]
  | some s =>
      by_cases h : p.temRemedio = true <;>
        by_cases h2 : p.remedio < p.maxRemedio <;> simp [stepPet, h, h2]

theorem stepPet_eq_nota_some (p : Pet) (s : String) (agora tNota : Nat) :
    stepPet p "nota" (some s) agora tNota =
      if jsTrim s ≠ "" then
        { p with notas := p.notas ++ [{ texto := jsTrim s, data := tNota }] }
      else p := by
  by_cases h : jsTrim s = "" <;> simp [stepPet, h]

theorem stepPet_eq_nota_none (p : Pet) (agora tNota : Nat) :
    stepPet p "nota" none agora tNota = p := by
  simp [stepPet]

theorem stepPet_eq_other (p : Pet) (tipo : String) (texto : Option String)
    (agora tNota : Nat) (h1 : tipo ≠ "comida") (h2 : tipo ≠ "remedio")
    (h3 : tipo ≠ "nota") :
    stepPet p tipo texto agora tNota = p := by
  cases texto with
  | none => simp [stepPet, h1, h2, h3]
  | some s => simp [stepPet, h1, h2, h3]

theorem updatePet_not_key (l : Store) (a : String) (p : Pet)
    (h : a ∉ storeKeys l) : updatePet l a p = l := by
  induction l with
  | nil => rfl
  | cons e t ih =>
      rw [storeKeys, List.map_cons, List.mem_cons, not_or] at h
      have h1 : ¬ e.1 = a := fun he => h.1 he.symm
      have h2 : updatePet t a p = t := ih h.2
      rw [updatePet, List.map_cons, if_neg h1]
      rw [updatePet] at h2
      rw [h2]

theorem updatePet_self (l : Store) (a : String) (p : Pet)
    (hk : (storeKeys l).Nodup) (hl : buscarPet l a = some p) :
    updatePet l a p = l := by
  induction l with
  | nil => simp [buscarPet] at hl
  | cons e t ih =>
      rw [storeKeys, List.map_cons, List.nodup_cons] at hk
      by_cases h : e.1 = a
      · rw [buscarPet, if_pos h] at hl
        injection hl with hl
        have ht : updatePet t a p = t := updatePet_not_key t a p (h ▸ hk.1)
        rw [updatePet, List.map_cons, if_pos h]
        rw [updatePet] at ht
        rw [ht, ← hl]
      · rw [buscarPet, if_neg h] at hl
        have ht := ih hk.2 hl
        rw [updatePet, List.map_cons, if_neg h]
        rw [updatePet] at ht
        rw [ht]

theorem getDate_congr (t t' : Nat) (h : calDay t = calDay t') :
    getDate t = getDate t' := by
  rw [getDate, getDate, h]

theorem verificarReset_ultimoReset (st : StoreState) (now : Nat) :
    (verificarReset st now).ultimoReset = getDate now := by
  rw [verificarReset]
  by_cases h : getDate now ≠ st.ultimoReset
  · rw [if_pos h]
  · rw [if_neg h]
    rw [not_not] at h
    exact h.symm

theorem resetPet_eq (p : Pet) :
    resetPet p =
      if p.temRemedio = true then
        { p with comida := 0, ultimoHorarioComida := none,
                 remedio := 0, ultimoHorarioRemedio := none }
      else { p with comida := 0, ultimoHorarioComida := none } := by
  by_cases h : p.temRemedio = true <;> simp [resetPet, h]

theorem verificarReset_noop (st : StoreState) (now : Nat)
    (h : getDate now = st.ultimoReset) : verificarReset st now = st := by
  simp [verificarReset, h]

/-- C1: `reconcile` is claimed to detect every calendar-day change, in either
direction and across multi-day jumps, and then to run exactly one reset pass.
The code compares only the day of the month (`new Date().getDate()`), so a
jump of exactly one month — from 2025-03-05 12:00 to 2025-04-05 12:00, i.e.
31 calendar days — is not detected: `verificarReset` leaves the state, the
stale `feedCount = 2` included, entirely unchanged.  This contradicts the
claim (and the reset function's own stated purpose of resetting the counters
every day at midnight). -/
theorem verificarReset_wholeMonth_no_reset :
    calDay 1743854400000 ≠ calDay 1741176000000 ∧
    getDate 1741176000000 = 5 ∧ getDate 1743854400000 = 5 ∧
    verificarReset
      { pets := [("tutu",
          { tutu with comida := 2, ultimoHorarioComida := some 1741176000000 })]
        ultimoReset := 5 } 1743854400000 =
      { pets := [("tutu",
          { tutu with comida := 2, ultimoHorarioComida := some 1741176000000 })]
        ultimoReset := 5 } := by
  refine ⟨by decide, by decide, by decide, ?_⟩
  exact verificarReset_noop _ _ (by decide)

/-- C8: `reconcile` is idempotent within a calendar day — after one
`verificarReset` call at `now`, a further call at any `now'` of the same
calendar day leaves every record and `ultimoReset` unchanged. -/
theorem reconcile_idempotent_same_day (st : StoreState) (now now' : Nat)
    (h : calDay now' = calDay now) :
    verificarReset (verificarReset st now) now' = verificarReset st now := by
  apply verificarReset_noop
  rw [verificarReset_ultimoReset st now]
  exact getDate_congr now' now h

/-- Witness for C8 at a concrete state and two timestamps of the same day. -/
theorem reconcile_idempotent_same_day_witness :
    calDay 86399999 = calDay 0 ∧
    verificarReset (verificarReset { pets := petsInit, ultimoReset := 1 } 0)
        86399999 =
      verificarReset { pets := petsInit, ultimoReset := 1 } 0 :=
  ⟨by decide,
    reconcile_idempotent_same_day { pets := petsInit, ultimoReset := 1 } 0
      86399999 (by decide)⟩

/-- C9: `evaluate` is a pure, deterministic function of `(record, now)`:
equal inputs give equal `{tipo, mensagem}` results, and the status route
(`statusAll`) returns the registry state exactly as the reconcile left it —
evaluating mutates nothing. -/
theorem evaluate_pure (pet pet' : Pet) (agora agora' : Nat)
    (h1 : pet = pet') (h2 : agora = agora') :
    calcularStatus pet agora = calcularStatus pet' agora' ∧
    (∀ st tReset, (statusAll st tReset agora).1 = verificarReset st tReset) := by
  subst h1
  subst h2
  exact ⟨rfl, fun st tReset => rfl⟩

/-- Witness for C9 at a concrete record and time. -/
theorem evaluate_pure_witness :
    tutu = tutu ∧ (0 : Nat) = 0 ∧
    (calcularStatus tutu 0 = calcularStatus tutu 0 ∧
      (∀ st tReset, (statusAll st tReset 0).1 = verificarReset st tReset)) :=
  ⟨rfl, rfl, evaluate_pure tutu tutu 0 0 rfl rfl⟩

/-- C10: a reset pass only touches `comida`, `ultimoHorarioComida` and, when
`temRemedio`, `remedio` and `ultimoHorarioRemedio`, plus the scheduler's
`ultimoReset`; the notes, the health flag, the caps, the medication flag and
every static identity attribute of every record survive unchanged, and
`verificarReset` either leaves the whole state alone or maps exactly
`resetPet` over the records while setting `ultimoReset`. -/
theorem reset_frame (p : Pet) (st : StoreState) (now : Nat) :
    (resetPet p).notas = p.notas ∧
    (resetPet p).alertaSaude = p.alertaSaude ∧
    (resetPet p).maxComida = p.maxComida ∧
    (resetPet p).temRemedio = p.temRemedio ∧
    (resetPet p).maxRemedio = p.maxRemedio ∧
    (resetPet p).especie = p.especie ∧
    (resetPet p).raca = p.raca ∧
    (resetPet p).genero = p.genero ∧
    (resetPet p).dataNascimento = p.dataNascimento ∧
    (resetPet p).peso = p.peso ∧
    (resetPet p).cor = p.cor ∧
    (verificarReset st now = st ∨
      verificarReset st now =
        { pets := st.pets.map (fun e => (e.1, resetPet e.2))
          ultimoReset := getDate now }) := by
  refine ⟨?_, ?_, ?_, ?_, ?_, ?_, ?_, ?_, ?_, ?_, ?_, ?_⟩
  all_goals try (rw [resetPet_eq]; split <;> rfl)
  by_cases h : getDate now ≠ st.ultimoReset
  · right
    simp [verificarReset, h]
  · left
    simp [verificarReset, h]

theorem applySeq_cons (pet : Pet) (tipo : String) (y : Option String × Nat × Nat)
    (ys : List (Option String × Nat × Nat)) :
    applySeq pet tipo (y :: ys) = applySeq (stepPet pet tipo y.1 y.2.1 y.2.2) tipo ys := rfl

theorem applySeq_comida_bound (pet : Pet) (h : pet.comida ≤ pet.maxComida)
    (xs : List (Option String × Nat × Nat)) :
    (applySeq pet "comida" xs).comida ≤ pet.maxComida ∧
    (applySeq pet "comida" xs).maxComida = pet.maxComida := by
  induction xs generalizing pet with
  | nil => exact ⟨h, rfl⟩
  | cons x xs ih =>
      rw [applySeq_cons]
      have hq : (stepPet pet "comida" x.1 x.2.1 x.2.2).comida ≤ pet.maxComida ∧
          (stepPet pet "comida" x.1 x.2.1 x.2.2).maxComida = pet.maxComida := by
        rw [stepPet_eq_comida]
        by_cases hc : pet.comida < pet.maxComida
        · rw [if_pos hc]
          exact ⟨hc, rfl⟩
        · rw [if_neg hc]
          exact ⟨h, rfl⟩
      have hstart : (stepPet pet "comida" x.1 x.2.1 x.2.2).comida ≤
          (stepPet pet "comida" x.1 x.2.1 x.2.2).maxComida := by
        rw [hq.2]
        exact hq.1
      have hrec := ih (stepPet pet "comida" x.1 x.2.1 x.2.2) hstart
      exact ⟨hrec.1.trans (le_of_eq hq.2), hrec.2.trans hq.2⟩

theorem applyAction_noop (pets : Store) (animal tipo : String)
    (texto : Option String) (agora tNota : Nat) (pet : Pet)
    (hk : (storeKeys pets).Nodup) (hb : buscarPet pets animal = some pet)
    (hstep : stepPet pet tipo texto agora tNota = pet) :
    applyAction pets animal tipo texto agora tNota = (pets, ApiResult.ok pet) := by
  simp only [applyAction, hb]
  rw [hstep, updatePet_self pets animal pet hk hb]

/-- C2: over any finite sequence of feed actions, `comida` never exceeds
`maxComida` (which the actions never change); and at the cap a further feed
action leaves the record entirely unchanged and still hands the caller the
current record as a non-error result. -/
theorem feed_cap_invariant (pet : Pet) (h : pet.comida ≤ pet.maxComida) :
    (∀ xs : List (Option String × Nat × Nat),
        (applySeq pet "comida" xs).comida ≤ (applySeq pet "comida" xs).maxComida ∧
        (applySeq pet "comida" xs).maxComida = pet.maxComida) ∧
    (pet.comida = pet.maxComida →
      (∀ texto agora tNota, stepPet pet "comida" texto agora tNota = pet) ∧
      (∀ pets animal texto agora tNota, (storeKeys pets).Nodup →
        buscarPet pets animal = some pet →
        applyAction pets animal "comida" texto agora tNota =
          (pets, ApiResult.ok pet))) := by
  constructor
  · intro xs
    have hb := applySeq_comida_bound pet h xs
    exact ⟨hb.2 ▸ hb.1, hb.2⟩
  · intro hcap
    have hnoop : ∀ texto agora tNota, stepPet pet "comida" texto agora tNota = pet := by
      intro texto agora tNota
      rw [stepPet_eq_comida, if_neg (by omega)]
    exact ⟨hnoop, fun pets animal texto agora tNota hk hbp =>
      applyAction_noop pets animal "comida" texto agora tNota pet hk hbp
        (hnoop texto agora tNota)⟩

/-- Witness for C2 at the concrete record `tutuFull`, which sits at its cap. -/
theorem feed_cap_invariant_witness :
    tutuFull.comida ≤ tutuFull.maxComida ∧
    ((∀ xs : List (Option String × Nat × Nat),
        (applySeq tutuFull "comida" xs).comida ≤
          (applySeq tutuFull "comida" xs).maxComida ∧
        (applySeq tutuFull "comida" xs).maxComida = tutuFull.maxComida) ∧
      (tutuFull.comida = tutuFull.maxComida →
        (∀ texto agora tNota, stepPet tutuFull "comida" texto agora tNota = tutuFull) ∧
        (∀ pets animal texto agora tNota, (storeKeys pets).Nodup →
          buscarPet pets animal = some tutuFull →
          applyAction pets animal "comida" texto agora tNota =
            (pets, ApiResult.ok tutuFull)))) :=
  ⟨by decide, feed_cap_invariant tutuFull (by decide)⟩

theorem calcularStatus_tipo_spec (pet : Pet) (agora : Nat) :
    (calcularStatus pet agora).tipo = specStatusTipo pet agora := by
  by_cases hs : pet.alertaSaude = true
  · simp [calcularStatus, specStatusTipo, hs]
  · cases hcom : pet.ultimoHorarioComida with
    | none =>
        cases hm : pet.ultimoHorarioRemedio with
        | none => simp [calcularStatus, specStatusTipo, hs, hcom, hm, overdueB]
        | some u =>
            by_cases ht : pet.temRemedio = true <;>
              by_cases hd : 12 ≤ (agora - u) / 1000 / 60 / 60 <;>
                simp [calcularStatus, specStatusTipo, hs, hcom, hm, overdueB, ht, hd]
    | some v =>
        by_cases hc : 8 ≤ (agora - v) / 1000 / 60 / 60
        · simp [calcularStatus, specStatusTipo, hs, hcom, overdueB, hc]
        · cases hm : pet.ultimoHorarioRemedio with
          | none => simp [calcularStatus, specStatusTipo, hs, hcom, hm, overdueB, hc]
          | some u =>
              by_cases ht : pet.temRemedio = true <;>
                by_cases hd : 12 ≤ (agora - u) / 1000 / 60 / 60 <;>
                  simp [calcularStatus, specStatusTipo, hs, hcom, hm, overdueB,
                    hc, ht, hd]

/-- C5: for a record with `temRemedio = false`, a medicate action is a
silent no-op (the whole record is unchanged); no action of any kind, and no
reset, ever changes its `remedio` counter, sets its `ultimoHorarioRemedio`,
or flips `temRemedio` (so the property persists over any prior history);
and the evaluator never classifies such a record as `remedio`. -/
theorem medicate_without_medication_noop (pet : Pet) (h : pet.temRemedio = false) :
    (∀ texto agora tNota, stepPet pet "remedio" texto agora tNota = pet) ∧
    (∀ tipo texto agora tNota,
        (stepPet pet tipo texto agora tNota).remedio = pet.remedio ∧
        (stepPet pet tipo texto agora tNota).ultimoHorarioRemedio =
          pet.ultimoHorarioRemedio ∧
        (stepPet pet tipo texto agora tNota).temRemedio = false) ∧
    ((resetPet pet).remedio = pet.remedio ∧
      (resetPet pet).ultimoHorarioRemedio = pet.ultimoHorarioRemedio ∧
      (resetPet pet).temRemedio = false) ∧
    (∀ agora, (calcularStatus pet agora).tipo ≠ "remedio") := by
  have hfalse : ¬ pet.temRemedio = true := by simp [h]
  refine ⟨?_, ?_, ?_, ?_⟩
  · intro texto agora tNota
    rw [stepPet_eq_remedio, if_neg hfalse]
  · intro tipo texto agora tNota
    by_cases hc : tipo = "comida"
    · subst hc
      rw [stepPet_eq_comida]
      split
      · exact ⟨rfl, rfl, h⟩
      · exact ⟨rfl, rfl, h⟩
    · by_cases hr : tipo = "remedio"
      · subst hr
        rw [stepPet_eq_remedio, if_neg hfalse]
        exact ⟨rfl, rfl, h⟩
      · by_cases hn : tipo = "nota"
        · subst hn
          cases texto with
          | none =>
              rw [stepPet_eq_nota_none]
              exact ⟨rfl, rfl, h⟩
          | some s =>
              rw [stepPet_eq_nota_some]
              split
              · exact ⟨rfl, rfl, h⟩
              · exact ⟨rfl, rfl, h⟩
        · rw [stepPet_eq_other pet tipo texto agora tNota hc hr hn]
          exact ⟨rfl, rfl, h⟩
  · rw [resetPet_eq, if_neg hfalse]
    exact ⟨rfl, rfl, h⟩
  · intro agora
    rw [ne_eq, calcularStatus_tipo_spec, specStatusTipo]
    split_ifs with h1 h2 h3
    · decide
    · decide
    · exact absurd (h ▸ h3.1) (by decide)
    · decide

/-- Witness for C5 at the concrete record `noah`, which has no medication. -/
theorem medicate_without_medication_noop_witness :
    noah.temRemedio = false ∧
    ((∀ texto agora tNota, stepPet noah "remedio" texto agora tNota = noah) ∧
      (∀ tipo texto agora tNota,
          (stepPet noah tipo texto agora tNota).remedio = noah.remedio ∧
          (stepPet noah tipo texto agora tNota).ultimoHorarioRemedio =
            noah.ultimoHorarioRemedio ∧
          (stepPet noah tipo texto agora tNota).temRemedio = false) ∧
      ((resetPet noah).remedio = noah.remedio ∧
        (resetPet noah).ultimoHorarioRemedio = noah.ultimoHorarioRemedio ∧
        (resetPet noah).temRemedio = false) ∧
      (∀ agora, (calcularStatus noah agora).tipo ≠ "remedio")) :=
  ⟨by decide, medicate_without_medication_noop noah (by decide)⟩

/-- C3 counterexample: the claim's corollary "a record that has never been
fed and has healthAlert = false evaluates to ok" is false on the code — the
record `tutuMedicado` was never fed, has no health alert, yet twelve hours
after its recorded medication the evaluator returns `remedio`, not `ok`. -/
theorem calcularStatus_neverFed_not_ok :
    tutuMedicado.ultimoHorarioComida = none ∧
    tutuMedicado.alertaSaude = false ∧
    (calcularStatus tutuMedicado 43200000).tipo = "remedio" ∧
    (calcularStatus tutuMedicado 43200000).tipo ≠ "ok" := by
  decide

/-- C3 (amended): `evaluate` returns the first matching kind in the fixed
priority order saude > comida > remedio > ok exactly as the claim's cascade
states (captured by `specStatusTipo`, written from the claim's words); in
particular, a record that has never been fed, has `alertaSaude = false`, and
has no overdue recorded medication evaluates to `ok`. -/
theorem calcularStatus_priority (pet : Pet) (agora : Nat) :
    (calcularStatus pet agora).tipo = specStatusTipo pet agora ∧
    (pet.ultimoHorarioComida = none → pet.alertaSaude = false →
      ¬(pet.temRemedio = true ∧ overdueB pet.ultimoHorarioRemedio agora 12 = true) →
      (calcularStatus pet agora).tipo = "ok") := by
  refine ⟨calcularStatus_tipo_spec pet agora, ?_⟩
  intro h1 h2 h3
  rw [calcularStatus_tipo_spec, specStatusTipo,
    if_neg (by simp [h2]), if_neg (by simp [overdueB, h1]), if_neg (by simpa using h3)]

/-- Witness for C3 (amended) at the concrete record `noah` and time 0. -/
theorem calcularStatus_priority_witness :
    (calcularStatus noah 0).tipo = specStatusTipo noah 0 ∧
    (noah.ultimoHorarioComida = none → noah.alertaSaude = false →
      ¬(noah.temRemedio = true ∧ overdueB noah.ultimoHorarioRemedio 0 12 = true) →
      (calcularStatus noah 0).tipo = "ok") :=
  calcularStatus_priority noah 0

theorem stepPet_tNota_irrel (p : Pet) (tipo : String) (texto : Option String)
    (agora tNota tNota' : Nat) (h : tipo ≠ "nota") :
    stepPet p tipo texto agora tNota = stepPet p tipo texto agora tNota' := by
  cases texto with
  | none => rfl
  | some s => simp [stepPet, h]

/-- C4 counterexample: the claim says the timestamp a call records always
refers to the one time value sampled by that call.  The nota branch of the
route samples the clock a second time: with the first sample at 1000 and the
second at 2000, the appended note records 2000, not the call's first sample
1000 — so `now` is not sampled exactly once per call. -/
theorem applyAction_nota_two_samples :
    (applyAction petsInit "tutu" "nota" (some "oi") 1000 2000).2 =
      ApiResult.ok { tutu with notas := [{ texto := "oi", data := 2000 }] } ∧
    (2000 : Nat) ≠ 1000 := by
  decide

/-- C4 (amended): the comida and remedio branches share the single
`agoraISO` sample — for any `tipo ≠ "nota"` the call's result does not
depend on the nota-branch sample at all, and the timestamp each counter
records is exactly that shared sample `agora`; only the annotate action
draws a second, separate sample for the note's timestamp. -/
theorem applyAction_single_sample_feed_medicate (pets : Store)
    (animal tipo : String) (texto : Option String)
    (agora tNota tNota' : Nat) (h : tipo ≠ "nota") :
    applyAction pets animal tipo texto agora tNota =
      applyAction pets animal tipo texto agora tNota' ∧
    (∀ pet, buscarPet pets animal = some pet → pet.comida < pet.maxComida →
      tipo = "comida" →
      (stepPet pet tipo texto agora tNota).ultimoHorarioComida = some agora) ∧
    (∀ pet, buscarPet pets animal = some pet → pet.temRemedio = true →
      pet.remedio < pet.maxRemedio → tipo = "remedio" →
      (stepPet pet tipo texto agora tNota).ultimoHorarioRemedio = some agora) := by
  refine ⟨?_, ?_, ?_⟩
  · cases hb : buscarPet pets animal with
    | none => simp [applyAction, hb]
    | some pet =>
        simp only [applyAction, hb]
        rw [stepPet_tNota_irrel pet tipo texto agora tNota tNota' h]
  · intro pet hb hlt htipo
    subst htipo
    rw [stepPet_eq_comida, if_pos hlt]
  · intro pet hb ht hlt htipo
    subst htipo
    rw [stepPet_eq_remedio, if_pos ht, if_pos hlt]

/-- Witness for C4 (amended) at a concrete feed call with two different
nota-branch samples. -/
theorem applyAction_single_sample_feed_medicate_witness :
    ("comida" : String) ≠ "nota" ∧
    (applyAction petsInit "tutu" "comida" none 5 6 =
        applyAction petsInit "tutu" "comida" none 5 7 ∧
      (∀ pet, buscarPet petsInit "tutu" = some pet → pet.comida < pet.maxComida →
        ("comida" : String) = "comida" →
        (stepPet pet "comida" none 5 6).ultimoHorarioComida = some 5) ∧
      (∀ pet, buscarPet petsInit "tutu" = some pet → pet.temRemedio = true →
        pet.remedio < pet.maxRemedio → ("comida" : String) = "remedio" →
        (stepPet pet "comida" none 5 6).ultimoHorarioRemedio = some 5)) :=
  ⟨by decide, applyAction_single_sample_feed_medicate petsInit "tutu" "comida"
    none 5 6 7 (by decide)⟩

theorem applySeq_nota_append (pet : Pet) (xs : List (String × Nat × Nat))
    (h : ∀ x ∈ xs, jsTrim (x : String × Nat × Nat).1 ≠ "") :
    (applySeq pet "nota" (xs.map (fun x => (some x.1, x.2)))).notas =
      pet.notas ++ xs.map (fun x => { texto := jsTrim x.1, data := x.2.2 }) := by
  induction xs generalizing pet with
  | nil => simp [applySeq]
  | cons x xs ih =>
      have hx : jsTrim x.1 ≠ "" := h x (List.mem_cons_self x xs)
      rw [List.map_cons, applySeq_cons]
      have hs := stepPet_eq_nota_some pet x.1 x.2.1 x.2.2
      rw [if_pos hx] at hs
      rw [hs, ih _ (fun y hy => h y (List.mem_cons_of_mem x hy))]
      simp

/-- C6: an annotate action with a text whose trim is non-empty appends
exactly one `{texto := trimmed, data := sampled time}` entry at the end of
`notas`; an absent, empty or whitespace-only text leaves `notas` unchanged;
every action only ever extends `notas` by a suffix and the reset never
touches it (append-only, no deletion or mutation); and a sequence of N
non-empty annotate actions appends exactly those N trimmed entries in
insertion order. -/
theorem notas_append_only (pet : Pet) :
    (∀ s agora tNota, jsTrim s ≠ "" →
        stepPet pet "nota" (some s) agora tNota =
          { pet with notas := pet.notas ++ [{ texto := jsTrim s, data := tNota }] }) ∧
    (∀ s agora tNota, jsTrim s = "" →
        stepPet pet "nota" (some s) agora tNota = pet) ∧
    (∀ agora tNota, stepPet pet "nota" none agora tNota = pet) ∧
    (∀ tipo texto agora tNota, ∃ suf,
        (stepPet pet tipo texto agora tNota).notas = pet.notas ++ suf) ∧
    ((resetPet pet).notas = pet.notas) ∧
    (∀ xs : List (String × Nat × Nat),
        (∀ x ∈ xs, jsTrim (x : String × Nat × Nat).1 ≠ "") →
        (applySeq pet "nota" (xs.map (fun x => (some x.1, x.2)))).notas =
          pet.notas ++ xs.map (fun x => { texto := jsTrim x.1, data := x.2.2 })) := by
  refine ⟨?_, ?_, ?_, ?_, ?_, ?_⟩
  · intro s agora tNota hs
    rw [stepPet_eq_nota_some, if_pos hs]
  · intro s agora tNota hs
    rw [stepPet_eq_nota_some, if_neg (by simp [hs])]
  · intro agora tNota
    exact stepPet_eq_nota_none pet agora tNota
  · intro tipo texto agora tNota
    by_cases hc : tipo = "comida"
    · subst hc
      refine ⟨[], ?_⟩
      rw [stepPet_eq_comida]
      split
      · simp
      · simp
    · by_cases hr : tipo = "remedio"
      · subst hr
        refine ⟨[], ?_⟩
        rw [stepPet_eq_remedio]
        split
        · split
          · simp
          · simp
        · simp
      · by_cases hn : tipo = "nota"
        · subst hn
          cases texto with
          | none =>
              refine ⟨[], ?_⟩
              rw [stepPet_eq_nota_none]
              simp
          | some s =>
              by_cases hs : jsTrim s = ""
              · refine ⟨[], ?_⟩
                rw [stepPet_eq_nota_some, if_neg (by simp [hs])]
                simp
              · refine ⟨[{ texto := jsTrim s, data := tNota }], ?_⟩
                rw [stepPet_eq_nota_some, if_pos hs]
        · refine ⟨[], ?_⟩
          rw [stepPet_eq_other pet tipo texto agora tNota hc hr hn]
          simp
  · rw [resetPet_eq]
    split
    · rfl
    · rfl
  · exact applySeq_nota_append pet

/-- Witness for C6 at the concrete record `tutu`. -/
theorem notas_append_only_witness :
    (∀ s agora tNota, jsTrim s ≠ "" →
        stepPet tutu "nota" (some s) agora tNota =
          { tutu with notas := tutu.notas ++ [{ texto := jsTrim s, data := tNota }] }) ∧
    (∀ s agora tNota, jsTrim s = "" →
        stepPet tutu "nota" (some s) agora tNota = tutu) ∧
    (∀ agora tNota, stepPet tutu "nota" none agora tNota = tutu) ∧
    (∀ tipo texto agora tNota, ∃ suf,
        (stepPet tutu tipo texto agora tNota).notas = tutu.notas ++ suf) ∧
    ((resetPet tutu).notas = tutu.notas) ∧
    (∀ xs : List (String × Nat × Nat),
        (∀ x ∈ xs, jsTrim (x : String × Nat × Nat).1 ≠ "") →
        (applySeq tutu "nota" (xs.map (fun x => (some x.1, x.2)))).notas =
          tutu.notas ++ xs.map (fun x => { texto := jsTrim x.1, data := x.2.2 })) :=
  notas_append_only tutu

/-- C7: an unknown animal identifier is the only error the pet routes
surface, and it is always reported (the action route errs exactly when the
lookup fails, and the GET route errs exactly when its parameter resolves to
no record); every other anomalous input — an unknown action kind, a counter
already at its cap, an absent or whitespace-only note text — leaves the
registry and the record unchanged and still returns the record to the
caller as a non-error result. -/
theorem notfound_only_error (pets : Store) (st : StoreState)
    (animal tipo : String) (texto : Option String)
    (agora tNota tReset : Nat) (aOpt : Option String) :
    ((applyAction pets animal tipo texto agora tNota).2.isError = true ↔
      buscarPet pets animal = none) ∧
    (∀ pet, buscarPet pets animal = some pet →
      (applyAction pets animal tipo texto agora tNota).2 =
        ApiResult.ok (stepPet pet tipo texto agora tNota)) ∧
    ((storeKeys pets).Nodup → ∀ pet, buscarPet pets animal = some pet →
      ((tipo ≠ "comida" ∧ tipo ≠ "remedio" ∧ tipo ≠ "nota") →
        applyAction pets animal tipo texto agora tNota = (pets, ApiResult.ok pet)) ∧
      (tipo = "comida" → ¬ pet.comida < pet.maxComida →
        applyAction pets animal tipo texto agora tNota = (pets, ApiResult.ok pet)) ∧
      (tipo = "remedio" → ¬ pet.remedio < pet.maxRemedio →
        applyAction pets animal tipo texto agora tNota = (pets, ApiResult.ok pet)) ∧
      (tipo = "nota" → texto = none →
        applyAction pets animal tipo texto agora tNota = (pets, ApiResult.ok pet)) ∧
      (tipo = "nota" → ∀ s, texto = some s → jsTrim s = "" →
        applyAction pets animal tipo texto agora tNota = (pets, ApiResult.ok pet))) ∧
    (buscarPet (verificarReset st tReset).pets "" = none →
      ((GET st aOpt tReset).2.isError = true ↔
        (aOpt.bind (buscarPet (verificarReset st tReset).pets)) = none)) := by
  refine ⟨?_, ?_, ?_, ?_⟩
  · cases hb : buscarPet pets animal with
    | none => simp [applyAction, hb, ApiResult.isError]
    | some pet => simp [applyAction, hb, ApiResult.isError]
  · intro pet hb
    simp [applyAction, hb]
  · intro hk pet hb
    refine ⟨?_, ?_, ?_, ?_, ?_⟩
    · intro hother
      exact applyAction_noop pets animal tipo texto agora tNota pet hk hb
        (stepPet_eq_other pet tipo texto agora tNota hother.1 hother.2.1 hother.2.2)
    · intro htipo hcap
      subst htipo
      exact applyAction_noop pets animal "comida" texto agora tNota pet hk hb
        (by rw [stepPet_eq_comida, if_neg hcap])
    · intro htipo hcap
      subst htipo
      refine applyAction_noop pets animal "remedio" texto agora tNota pet hk hb ?_
      rw [stepPet_eq_remedio]
      by_cases ht : pet.temRemedio = true
      · rw [if_pos ht, if_neg hcap]
      · rw [if_neg ht]
    · intro htipo htexto
      subst htipo
      subst htexto
      exact applyAction_noop pets animal "nota" none agora tNota pet hk hb
        (stepPet_eq_nota_none pet agora tNota)
    · intro htipo s htexto hs
      subst htipo
      subst htexto
      exact applyAction_noop pets animal "nota" (some s) agora tNota pet hk hb
        (by rw [stepPet_eq_nota_some, if_neg (by simp [hs])])
  · intro h0
    cases aOpt with
    | none => simp [GET, ApiResult.isError]
    | some a =>
        by_cases ha : a = ""
        · subst ha
          simp [GET, ApiResult.isError, h0]
        · cases hb : buscarPet (verificarReset st tReset).pets a with
          | none => simp [GET, ApiResult.isError, ha, hb]
          | some pet => simp [GET, ApiResult.isError, ha, hb]

/-- Witness for C7 at the initial registry, an unknown action kind `banho`,
and a concrete GET request. -/
theorem notfound_only_error_witness :
    ((applyAction petsInit "tutu" "banho" none 3 4).2.isError = true ↔
      buscarPet petsInit "tutu" = none) ∧
    (∀ pet, buscarPet petsInit "tutu" = some pet →
      (applyAction petsInit "tutu" "banho" none 3 4).2 =
        ApiResult.ok (stepPet pet "banho" none 3 4)) ∧
    ((storeKeys petsInit).Nodup → ∀ pet, buscarPet petsInit "tutu" = some pet →
      ((("banho" : String) ≠ "comida" ∧ ("banho" : String) ≠ "remedio" ∧
          ("banho" : String) ≠ "nota") →
        applyAction petsInit "tutu" "banho" none 3 4 = (petsInit, ApiResult.ok pet)) ∧
      (("banho" : String) = "comida" → ¬ pet.comida < pet.maxComida →
        applyAction petsInit "tutu" "banho" none 3 4 = (petsInit, ApiResult.ok pet)) ∧
      (("banho" : String) = "remedio" → ¬ pet.remedio < pet.maxRemedio →
        applyAction petsInit "tutu" "banho" none 3 4 = (petsInit, ApiResult.ok pet)) ∧
      (("banho" : String) = "nota" → (none : Option String) = none →
        applyAction petsInit "tutu" "banho" none 3 4 = (petsInit, ApiResult.ok pet)) ∧
      (("banho" : String) = "nota" → ∀ s, (none : Option String) = some s →
        jsTrim s = "" →
        applyAction petsInit "tutu" "banho" none 3 4 = (petsInit, ApiResult.ok pet))) ∧
    (buscarPet (verificarReset { pets := petsInit, ultimoReset := 1 } 0).pets "" =
        none →
      ((GET { pets := petsInit, ultimoReset := 1 } (some "tutu") 0).2.isError = true ↔
        ((some "tutu").bind
            (buscarPet (verificarReset { pets := petsInit, ultimoReset := 1 } 0).pets)) =
          none)) :=
  notfound_only_error petsInit { pets := petsInit, ultimoReset := 1 } "tutu" "banho"
    none 3 4 0 (some "tutu")
